import Mathlib

/-!
Verification development for the report-uri-mpulse relay (src/index.js).

The source is a small Node service that accepts browser violation reports
(CSP, NEL, Deprecation, Intervention, Crash, Feature-Policy, XSS, Expect-CT),
normalizes each into a compact record, serializes the record with the jsurl
wire format, and forwards a beacon to the mPulse backend.

This file shallowly embeds the JavaScript of src/index.js:
pure string manipulation becomes Lean functions on `List Char`/`String`,
untyped JSON payloads become the inductive `JSVal`, and JavaScript
exceptions (TypeError on property access of undefined/null and on calling
string methods of non-strings) become `Except JSErr`.
-/

namespace ReportUri

/-! ## Characters used by the wire format and the parsers.
`quoteCh` is the ASCII apostrophe (code 39). -/

def tildeCh : Char := '~'

def openCh : Char := '('

def closeCh : Char := ')'

def bangCh : Char := '!'

def starCh : Char := '*'

def dollarCh : Char := '$'

def dashCh : Char := '-'

def quoteCh : Char := Char.ofNat 39

/-! ## JavaScript string helpers.

`String.prototype.replace(pat, "")` with a *string* pattern replaces only
the first occurrence of `pat`, wherever it is (not anchored); `indexOf` +
`substring(0, idx)` truncates at the first occurrence of a character.
These model the operations used at src/index.js lines 106-113 and 228. -/

/-- JS `s.replace(pat, "")` on char lists: remove the first occurrence of
`pat` as a contiguous substring; unchanged when `pat` does not occur. -/
def replFirst (pat : List Char) : List Char → List Char
  | [] => []
  | c :: cs =>
    if pat.isPrefixOf (c :: cs) then (c :: cs).drop pat.length
    else c :: replFirst pat cs

/-- JS `idx = s.indexOf(ch); if (idx !== -1) s = s.substring(0, idx)`:
keep the characters strictly before the first occurrence of `ch`
(the whole list when `ch` does not occur). -/
def truncAtFirstL (stop : Char) : List Char → List Char
  | [] => []
  | c :: cs => if c = stop then [] else c :: truncAtFirstL stop cs

/-- Whether `pat` occurs in `s` as a contiguous substring. -/
def hasInfixL (pat : List Char) : List Char → Bool
  | [] => pat.isPrefixOf ([] : List Char)
  | c :: cs => pat.isPrefixOf (c :: cs) || hasInfixL pat cs

/-- String-level wrapper for `replFirst`. -/
def jsReplaceFirst (s pat : String) : String := ⟨replFirst pat.data s.data⟩

/-- String-level wrapper for `truncAtFirstL`. -/
def truncAtFirst (s : String) (stop : Char) : String := ⟨truncAtFirstL stop s.data⟩

/-- String-level wrapper for `hasInfixL`. -/
def hasSubstr (s pat : String) : Bool := hasInfixL pat.data s.data

/-- src/index.js lines 106 and 228:
`.replace("http://", "").replace("https://", "")` - first strip the first
occurrence of `http://`, then the first occurrence of `https://`. -/
def stripScheme (s : String) : String :=
  jsReplaceFirst (jsReplaceFirst s "http://") "https://"

/-! ## Untyped JavaScript/JSON values and the exception model. -/

/-- The only exception the embedded code can raise: a JS `TypeError`
(property access on `undefined`/`null`, or a string-method call on a value
that is not a string). -/
inductive JSErr where
  | typeError
deriving DecidableEq

/-- An untyped JavaScript value as delivered by JSON body parsing, plus
`undefined` for the result of reading an absent property. Numbers are modelled
as integers (all numeric report fields - status codes, line/column
numbers, timestamps - are integral). -/
inductive JSVal where
  | undefined
  | null
  | bool (b : Bool)
  | num (n : Int)
  | str (s : String)
  | arr (elems : List JSVal)
  | obj (fields : List (String × JSVal))

/-- JS truthiness: `undefined`, `null`, `false`, `0` and `""` are falsy;
every other value (including `[]` and `{}`) is truthy. -/
def truthy : JSVal → Bool
  | .undefined => false
  | .null => false
  | .bool b => b
  | .num n => n ≠ 0
  | .str s => s ≠ ""
  | .arr _ => true
  | .obj _ => true

/-- First value bound to key `k` in an object literal. -/
def lookupField (k : String) : List (String × JSVal) → JSVal
  | [] => .undefined
  | (k2, v) :: rest => if k2 = k then v else lookupField k rest

/-- JS property read `v[k]`: throws TypeError on `undefined`/`null`,
returns `undefined` for a key an object does not have and for every
property read on a primitive or an array (no report uses index or
method properties). -/
def JSVal.get : JSVal → String → Except JSErr JSVal
  | .undefined, _ => .error .typeError
  | .null, _ => .error .typeError
  | .obj fields, k => .ok (lookupField k fields)
  | _, _ => .ok .undefined

/-- JS strict equality `v === lit` against a string literal. -/
def JSVal.eqStr : JSVal → String → Bool
  | .str s, t => s = t
  | _, _ => false

/-- Calling a string method (`replace`, `indexOf`, `substring`) on `v`:
succeeds with the string when `v` is one, otherwise raises TypeError
(none of the other runtime values has these methods). -/
def JSVal.requireStr : JSVal → Except JSErr String
  | .str s => .ok s
  | _ => .error .typeError

/-- JS `a || b` (used for `csp-report || body` and the directive pick). -/
def jsOr (a b : JSVal) : JSVal := if truthy a then a else b

/-! ## Decimal and base-36 rendering of numbers.

`when.toString(36)` at src/index.js lines 120/138/... produces the
lowercase base-36 digits of the capture timestamp; template literals and
the wire format render numbers in decimal. -/

/-- The digit character for `d < 36`: `0`-`9` then lowercase `a`-`z`,
exactly as JS `Number.prototype.toString(radix)`. -/
def digit36Chr (d : Nat) : Char :=
  if d < 10 then Char.ofNat (48 + d) else Char.ofNat (87 + d)

/-- Decimal digits of a natural number, most significant first
(JS `String(n)` for a nonnegative integer). -/
def natChars (n : Nat) : List Char :=
  if n = 0 then [digit36Chr 0] else (Nat.digits 10 n).reverse.map digit36Chr

/-- Decimal rendering of an integer (JS `String(n)`). -/
def intChars (n : Int) : List Char :=
  if n < 0 then dashCh :: natChars n.natAbs else natChars n.natAbs

/-- `n.toString(36)` - lowercase base-36 digits, `"0"` for zero. -/
def natToBase36 (n : Nat) : String :=
  if n = 0 then "0" else ⟨(Nat.digits 36 n).reverse.map digit36Chr⟩

/-! ## Template-literal coercion.

A template literal interpolation coerces any value to a string with the
usual JS rules (`undefined` / `null` / booleans spelled out, arrays joined
by commas with `null`/`undefined` elements rendered empty, plain objects
as `[object Object]`). -/

mutual

/-- JS string coercion of a value, as in a template literal. -/
def jsToStr : JSVal → String
  | .undefined => "undefined"
  | .null => "null"
  | .bool true => "true"
  | .bool false => "false"
  | .num n => ⟨intChars n⟩
  | .str s => s
  | .arr xs => String.intercalate "," (jsToStrElems xs)
  | .obj _ => "[object Object]"

/-- Array elements under string coercion (`Array.prototype.join`). -/
def jsToStrElems : List JSVal → List String
  | [] => []
  | .undefined :: rest => "" :: jsToStrElems rest
  | .null :: rest => "" :: jsToStrElems rest
  | v :: rest => jsToStr v :: jsToStrElems rest

end

/-! ## JSON.stringify.

Used by the source only inside the `INCLUDE_FULL_REPORT ? ... : undefined`
detail branches (statically dead in this build, see `INCLUDE_FULL_REPORT`).
String escaping covers the quote and backslash. -/

/-- Escape one character for a JSON string literal. -/
def jsonEscChar (c : Char) : List Char :=
  if c = '"' then ['\\', '"'] else if c = '\\' then ['\\', '\\'] else [c]

/-- A JSON string literal. -/
def jsonQuote (s : String) : String :=
  ⟨'"' :: (s.data.map jsonEscChar).flatten ++ ['"']⟩

mutual

/-- Model of `JSON.stringify` on the embedded values (the source only
evaluates it in the dead full-report branches). -/
def jsonStringify : JSVal → String
  | .undefined => "null"
  | .null => "null"
  | .bool true => "true"
  | .bool false => "false"
  | .num n => ⟨intChars n⟩
  | .str s => jsonQuote s
  | .arr xs => "[" ++ String.intercalate "," (jsonElems xs) ++ "]"
  | .obj fs => "\x7b" ++ String.intercalate "," (jsonFields fs) ++ "\x7d"

/-- Array elements under `JSON.stringify` (`undefined` becomes `null`). -/
def jsonElems : List JSVal → List String
  | [] => []
  | v :: rest => jsonStringify v :: jsonElems rest

/-- Object fields under `JSON.stringify`; fields whose value is
`undefined` are omitted. -/
def jsonFields : List (String × JSVal) → List String
  | [] => []
  | (_, .undefined) :: rest => jsonFields rest
  | (k, v) :: rest => (jsonQuote k ++ ":" ++ jsonStringify v) :: jsonFields rest

end

/-! ## The normalized error record.

src/index.js builds, per recognized report, the object
`{ v: 0, t: <title>, d: when.toString(36), m: <message>, f: <detail?> }`
and serializes `[record]` with `JSURL.stringify`. -/

/-- The optional detail payload (`f` field): either a raw JSON dump
`[{ f: ... }]`, or line/column/source-file plus dump
`[{ l, c, f, w }]` for the script-level kinds. -/
inductive DetailPayload where
  | raw (f : String)
  | script (l c : Int) (f : String) (w : String)
deriving DecidableEq

/-- The record serialized into the beacon `err` field (spec §3
NormalizedError: schemaVersion `v`, title `t`, dateToken `d`,
message `m`, optional detail `f`). -/
structure NormalizedError where
  v : Nat
  t : String
  d : String
  m : String
  f : Option DetailPayload
deriving DecidableEq

/-- src/index.js line 15: `const INCLUDE_FULL_REPORT = false;`. -/
def INCLUDE_FULL_REPORT : Bool := false

/-! ## The wire format (spec §4.3 Encoder).

Modelled from the spec: the encoder itself is the external `jsurl`
dependency (`require("jsurl")`, not part of this repository's sources).
Per the spec's Encoder contract it is a URL-safe, self-describing,
reversible encoding of arrays/objects/primitives in which `undefined`
object fields are omitted. The model follows the jsurl wire format:
values are tilde-prefixed, strings are quote-tagged with unsafe
characters hex-escaped behind `*`, objects/arrays are parenthesized, and
an object field whose value is `undefined` produces no output at all. -/

/-- Characters the wire format keeps verbatim: ASCII letters, digits,
`_`, `-`, `.` (everything else is escaped). -/
def jsurlSafe (c : Char) : Bool :=
  c.isAlpha || c.isDigit || c = '_' || c = dashCh || c = '.'

/-- Two lowercase hex digits, zero padded (`n < 256`). -/
def toHex2 (n : Nat) : List Char :=
  [digit36Chr (n / 16 % 16), digit36Chr (n % 16)]

/-- Four lowercase hex digits, zero padded (`n < 65536`). -/
def toHex4 (n : Nat) : List Char :=
  [digit36Chr (n / 4096 % 16), digit36Chr (n / 256 % 16),
    digit36Chr (n / 16 % 16), digit36Chr (n % 16)]

/-- Six lowercase hex digits, zero padded (astral code points). -/
def toHex6 (n : Nat) : List Char :=
  [digit36Chr (n / 1048576 % 16), digit36Chr (n / 65536 % 16),
    digit36Chr (n / 4096 % 16), digit36Chr (n / 256 % 16),
    digit36Chr (n / 16 % 16), digit36Chr (n % 16)]

/-- Modelled from the spec: one character of a string value on the wire.
Safe characters pass through, `$` compresses to `!`, anything else
becomes `*`+hex2, `**`+hex4 or `***`+hex6 by code-point size. -/
def encodeChar (c : Char) : List Char :=
  if jsurlSafe c then [c]
  else if c = dollarCh then [bangCh]
  else if c.toNat < 256 then starCh :: toHex2 c.toNat
  else if c.toNat < 65536 then starCh :: starCh :: toHex4 c.toNat
  else starCh :: starCh :: starCh :: toHex6 c.toNat

/-- A whole string value on the wire (no `~`, `)` or `(` survives). -/
def encodeStrChars (cs : List Char) : List Char :=
  (cs.map encodeChar).flatten

/-- Numeric value of one lowercase hex digit. -/
def hexVal (c : Char) : Nat :=
  if c.isDigit then c.toNat - 48 else c.toNat - 87

/-- Value of a two-digit hex escape. -/
def fromHex2 (a b : Char) : Nat := 16 * hexVal a + hexVal b

/-- Value of a four-digit hex escape. -/
def fromHex4 (a b c d : Char) : Nat :=
  4096 * hexVal a + 256 * hexVal b + 16 * hexVal c + hexVal d

/-- Value of a six-digit hex escape. -/
def fromHex6 (a b c d e f : Char) : Nat :=
  1048576 * hexVal a + 65536 * hexVal b + 4096 * hexVal c
    + 256 * hexVal d + 16 * hexVal e + hexVal f

/-- Six hex digits after `***`. -/
def readHex6Tail : List Char → Option (Char × List Char)
  | a :: b :: c :: d :: e :: f :: rest =>
    some (Char.ofNat (fromHex6 a b c d e f), rest)
  | _ => none

/-- Three more hex digits after `**<first digit>`. -/
def readHex4Tail (c3 : Char) : List Char → Option (Char × List Char)
  | b :: c :: d :: rest => some (Char.ofNat (fromHex4 c3 b c d), rest)
  | _ => none

/-- One more hex digit after `*<first digit>`. -/
def readHex2Tail (c2 : Char) : List Char → Option (Char × List Char)
  | b :: rest => some (Char.ofNat (fromHex2 c2 b), rest)
  | [] => none

/-- The remainder of one escape whose first two characters were `**`. -/
def readEscapeStar : List Char → Option (Char × List Char)
  | [] => none
  | c3 :: rest3 =>
    if c3 = starCh then readHex6Tail rest3 else readHex4Tail c3 rest3

/-- Read the remainder of one `*`-escape (the `*` itself already
consumed): one more `*` upgrades to four hex digits, two more to six;
otherwise two hex digits. Returns the decoded character and the rest,
or `none` when the input is malformed (never on encoder output). -/
def readEscape : List Char → Option (Char × List Char)
  | [] => none
  | c2 :: rest2 =>
    if c2 = starCh then readEscapeStar rest2 else readHex2Tail c2 rest2

/-- Modelled from the spec: decode a string value off the wire, with
explicit fuel (one unit per decoded character suffices). Consumes
characters up to (not including) the first top-level `~` or `)`,
undoing the escapes; returns the decoded string and the rest of the
input. Malformed trailing escapes (never produced by the encoder)
abandon the input. -/
def decodeAux : Nat → List Char → List Char × List Char
  | 0, s => ([], s)
  | _ + 1, [] => ([], [])
  | fuel + 1, c :: rest =>
    if c = tildeCh ∨ c = closeCh then ([], c :: rest)
    else if c = bangCh then
      let p := decodeAux fuel rest
      (dollarCh :: p.1, p.2)
    else if c = starCh then
      (readEscape rest).elim ([], [])
        (fun q =>
          let p := decodeAux fuel q.2
          (q.1 :: p.1, p.2))
    else
      let p := decodeAux fuel rest
      (c :: p.1, p.2)

/-- Decode a string value off the wire (fuel = input length, always
enough because every step consumes at least one character). -/
def decodeStrL (s : List Char) : List Char × List Char := decodeAux s.length s

/-- The four wire characters `~k~. <quote>` that introduce the string
field keyed by `k` inside the record object. -/
def tickSeq (k : Char) : List Char := [tildeCh, k, tildeCh, quoteCh]

/-- Wire chars of the inside of a detail object (between its `~(` and
its `)`): `f~. <quote>...` for a raw dump,
`l~<n>~c~<n>~f~. <quote>...~w~. <quote>...` for script detail. -/
def detInnerChars : DetailPayload → List Char
  | .raw f => ['f', tildeCh, quoteCh] ++ encodeStrChars f.data
  | .script l c f w =>
    ['l', tildeCh] ++ intChars l
      ++ [tildeCh, 'c', tildeCh] ++ intChars c
      ++ tickSeq 'f' ++ encodeStrChars f.data
      ++ tickSeq 'w' ++ encodeStrChars w.data

/-- Modelled from the spec: the wire characters of `[record]` - the
one-element array holding the record object, fields in insertion order
`v`, `t`, `d`, `m` and (only when present) `f`; an absent detail
contributes nothing to the output. The trailing parentheses close, in
order: the detail object and detail array (when present), the record
object and the outer array. -/
def neChars (r : NormalizedError) : List Char :=
  [tildeCh, openCh, tildeCh, openCh, 'v', tildeCh] ++ natChars r.v
    ++ tickSeq 't' ++ encodeStrChars r.t.data
    ++ tickSeq 'd' ++ encodeStrChars r.d.data
    ++ tickSeq 'm' ++ encodeStrChars r.m.data
    ++ (match r.f with
        | none => [closeCh, closeCh]
        | some fd =>
          [tildeCh, 'f', tildeCh, openCh, tildeCh, openCh]
            ++ detInnerChars fd
            ++ [closeCh, closeCh, closeCh, closeCh])

/-- `JSURL.stringify([record])` as called at src/index.js lines 116/134/
152/173/194/212/230/246. -/
def stringifyNE (r : NormalizedError) : String := ⟨neChars r⟩

/-- Drop an expected literal prefix, or fail. -/
def stripPre : List Char → List Char → Option (List Char)
  | [], s => some s
  | p :: ps, c :: cs => if c = p then stripPre ps cs else none
  | _ :: _, [] => none

/-- Is `c` an ASCII decimal digit? -/
def isDigitCh (c : Char) : Bool := c.isDigit

/-- Accumulate a decimal digit list into a natural number. -/
def natOfDigitChars (cs : List Char) : Nat :=
  cs.foldl (fun a c => 10 * a + (c.toNat - 48)) 0

/-- Read a nonempty run of decimal digits. -/
def readNatTok (s : List Char) : Option (Nat × List Char) :=
  let ds := s.takeWhile isDigitCh
  if ds = [] then none else some (natOfDigitChars ds, s.dropWhile isDigitCh)

/-- Read a decimal integer, optionally `-`-signed. -/
def readIntTok : List Char → Option (Int × List Char)
  | [] => none
  | c :: cs =>
    if c = dashCh then (readNatTok cs).map (fun p => (-(p.1 : Int), p.2))
    else (readNatTok (c :: cs)).map (fun p => ((p.1 : Int), p.2))

/-- Modelled from the spec: the decoder for the wire format of
`stringifyNE`, i.e. `JSURL.parse` restricted to the shape the encoder
emits. Returns `none` on any malformed input. -/
def parseNE (s : String) : Option NormalizedError := do
  let cs := s.data
  let cs ← stripPre [tildeCh, openCh, tildeCh, openCh, 'v', tildeCh] cs
  let (v, cs) ← readNatTok cs
  let cs ← stripPre (tickSeq 't') cs
  let (tL, cs) := decodeStrL cs
  let cs ← stripPre (tickSeq 'd') cs
  let (dL, cs) := decodeStrL cs
  let cs ← stripPre (tickSeq 'm') cs
  let (mL, cs) := decodeStrL cs
  match cs with
  | [] => none
  | c1 :: rest1 =>
    if c1 = closeCh then
      if rest1 = [closeCh] then some ⟨v, ⟨tL⟩, ⟨dL⟩, ⟨mL⟩, none⟩ else none
    else do
      let cs ← stripPre [tildeCh, 'f', tildeCh, openCh, tildeCh, openCh]
        (c1 :: rest1)
      match cs with
      | [] => none
      | k :: cs2 =>
        if k = 'f' then do
          let cs ← stripPre [tildeCh, quoteCh] cs2
          let (fL, cs) := decodeStrL cs
          let cs ← stripPre [closeCh, closeCh, closeCh, closeCh] cs
          if cs = [] then some ⟨v, ⟨tL⟩, ⟨dL⟩, ⟨mL⟩, some (.raw ⟨fL⟩)⟩ else none
        else if k = 'l' then do
          let cs ← stripPre [tildeCh] cs2
          let (l, cs) ← readIntTok cs
          let cs ← stripPre [tildeCh, 'c', tildeCh] cs
          let (c, cs) ← readIntTok cs
          let cs ← stripPre (tickSeq 'f') cs
          let (fL, cs) := decodeStrL cs
          let cs ← stripPre (tickSeq 'w') cs
          let (wL, cs) := decodeStrL cs
          let cs ← stripPre [closeCh, closeCh, closeCh, closeCh] cs
          if cs = [] then some ⟨v, ⟨tL⟩, ⟨dL⟩, ⟨mL⟩, some (.script l c ⟨fL⟩ ⟨wL⟩)⟩
          else none
        else none

/-- A wire-format position at which a string value may legally end:
the end of input, a `~`, or a `)`. -/
def termHeadB : List Char → Bool
  | [] => true
  | c :: _ => c == tildeCh || c == closeCh

/-! ## Report classification (src/index.js lines 98-259).

`handleReport` is one `if`/`else if` chain; the conditions, in source
order, are: `body.type === "csp" || body["csp-report"]`, then
`body.type === "network-error"|"deprecation"|"intervention"|"crash"|
"feature-policy-violation"`, then `body["xss-report"]`, then
`body["expect-ct-report"]`, else the unknown fallthrough. -/

/-- The report kinds, plus the unknown fallthrough. -/
inductive Kind where
  | csp
  | nel
  | deprecation
  | intervention
  | crash
  | featurePolicy
  | xss
  | expectCT
  | unknown
deriving DecidableEq

/-- Which branch of the `handleReport` chain fires for `body`
(raising TypeError exactly when the chain itself would, i.e. when
`body` is `undefined`/`null`). -/
def kindOf (body : JSVal) : Except JSErr Kind := do
  let ty ← body.get "type"
  let cspMarker ← body.get "csp-report"
  if ty.eqStr "csp" || truthy cspMarker then .ok .csp
  else if ty.eqStr "network-error" then .ok .nel
  else if ty.eqStr "deprecation" then .ok .deprecation
  else if ty.eqStr "intervention" then .ok .intervention
  else if ty.eqStr "crash" then .ok .crash
  else if ty.eqStr "feature-policy-violation" then .ok .featurePolicy
  else do
    let xssMarker ← body.get "xss-report"
    if truthy xssMarker then .ok .xss
    else do
      let ctMarker ← body.get "expect-ct-report"
      if truthy ctMarker then .ok .expectCT else .ok .unknown

/-- What a normalizer contributes to the beacon: the optional `u` value
and the optional record encoded into `err`. -/
abbrev NormOut := Option JSVal × Option NormalizedError

/-- CSP branch, src/index.js lines 98-125:
`csp = body["csp-report"] || body.body`; `u = csp["document-uri"]`;
blocked-uri scheme-stripped then truncated at its first `/`; directive
`effective-directive || violated-directive` truncated at its first
space; message `<directive>: <blockedUri>`. The two `||` operands are
hoisted into unconditional reads: a property read is effect-free and
throws exactly when its receiver is `undefined`/`null`, in which case
the read of the first operand (same receiver) throws identically, so
dropping the short-circuit is observationally equal. -/
def normCSP (body : JSVal) (when : Nat) : Except JSErr NormOut := do
  let cspMarker ← body.get "csp-report"
  let bodyField ← body.get "body"
  let csp := jsOr cspMarker bodyField
  let du ← csp.get "document-uri"
  let buVal ← csp.get "blocked-uri"
  let bu ← buVal.requireStr
  let blockedUri := truncAtFirst (stripScheme bu) '/'
  let edVal ← csp.get "effective-directive"
  let vdVal ← csp.get "violated-directive"
  let dir ← (jsOr edVal vdVal).requireStr
  let directive := truncAtFirst dir ' '
  .ok (some du, some
    { v := 0
      t := "Content Security Policy"
      d := natToBase36 when
      m := directive ++ ": " ++ blockedUri
      f := if INCLUDE_FULL_REPORT then some (.raw (jsonStringify csp)) else none })

/-- NEL branch, src/index.js lines 126-143: `u = body.url`; message
`<type> <protocol> <method> <status_code>` from `body.body`. -/
def normNEL (body : JSVal) (when : Nat) : Except JSErr NormOut := do
  let nel ← body.get "body"
  let u ← body.get "url"
  let ty ← nel.get "type"
  let proto ← nel.get "protocol"
  let meth ← nel.get "method"
  let status ← nel.get "status_code"
  .ok (some u, some
    { v := 0
      t := "Network Error Logging"
      d := natToBase36 when
      m := jsToStr ty ++ " " ++ jsToStr proto ++ " " ++ jsToStr meth ++ " " ++ jsToStr status
      f := if INCLUDE_FULL_REPORT then some (.raw (jsonStringify nel)) else none })

/-- Read the script-detail fields of the dead full-report branch
(line/column as integers, source file under string coercion). -/
def scriptDetailOf (payload : JSVal) : Except JSErr DetailPayload := do
  let l ← payload.get "lineNumber"
  let c ← payload.get "columnNumber"
  let sf ← payload.get "sourceFile"
  .ok (.script
    (match l with | .num n => n | _ => 0)
    (match c with | .num n => n | _ => 0)
    (jsToStr sf) (jsonStringify payload))

/-- Deprecation branch, src/index.js lines 144-164: `u = body.url`;
message `<id> <anticipatedRemoval?>` trimmed. The script-detail reads of
the dead full-report arm are hoisted (effect-free, same receiver as the
`id` read, so identical throw behavior). -/
def normDeprecation (body : JSVal) (when : Nat) : Except JSErr NormOut := do
  let dep ← body.get "body"
  let u ← body.get "url"
  let id ← dep.get "id"
  let ar ← dep.get "anticipatedRemoval"
  let detail ← scriptDetailOf dep
  .ok (some u, some
    { v := 0
      t := "Deprecation"
      d := natToBase36 when
      m := (jsToStr id ++ " " ++ (if truthy ar then jsToStr ar else "")).trim
      f := if INCLUDE_FULL_REPORT then some detail else none })

/-- Intervention branch, src/index.js lines 165-185: `u = body.url`;
message `<id>`. Script-detail reads hoisted as in the Deprecation
branch. -/
def normIntervention (body : JSVal) (when : Nat) : Except JSErr NormOut := do
  let iv ← body.get "body"
  let u ← body.get "url"
  let id ← iv.get "id"
  let detail ← scriptDetailOf iv
  .ok (some u, some
    { v := 0
      t := "Intervention"
      d := natToBase36 when
      m := jsToStr id
      f := if INCLUDE_FULL_REPORT then some detail else none })

/-- Crash branch, src/index.js lines 186-203: `u = body.url`;
message `<reason>`. -/
def normCrash (body : JSVal) (when : Nat) : Except JSErr NormOut := do
  let crash ← body.get "body"
  let u ← body.get "url"
  let reason ← crash.get "reason"
  .ok (some u, some
    { v := 0
      t := "Crash"
      d := natToBase36 when
      m := jsToStr reason
      f := if INCLUDE_FULL_REPORT then some (.raw (jsonStringify crash)) else none })

/-- Feature-Policy branch, src/index.js lines 204-221: `u = body.url`;
message `<policyId>`. -/
def normFeaturePolicy (body : JSVal) (when : Nat) : Except JSErr NormOut := do
  let violation ← body.get "body"
  let u ← body.get "url"
  let policyId ← violation.get "policyId"
  .ok (some u, some
    { v := 0
      t := "Feature Policy Violation"
      d := natToBase36 when
      m := jsToStr policyId
      f := if INCLUDE_FULL_REPORT then some (.raw (jsonStringify violation)) else none })

/-- XSS branch, src/index.js lines 222-239: no `u`; message is
`request-url` scheme-stripped (no path truncation). -/
def normXSS (body : JSVal) (when : Nat) : Except JSErr NormOut := do
  let xss ← body.get "xss-report"
  let ruVal ← xss.get "request-url"
  let ru ← ruVal.requireStr
  .ok (none, some
    { v := 0
      t := "XSS Report"
      d := natToBase36 when
      m := stripScheme ru
      f := if INCLUDE_FULL_REPORT then some (.raw (jsonStringify xss)) else none })

/-- Expect-CT branch, src/index.js lines 240-252: no `u`; message
`<hostname>`; the record carries no `f` field at all. -/
def normExpectCT (body : JSVal) (when : Nat) : Except JSErr NormOut := do
  let ct ← body.get "expect-ct-report"
  let hostname ← ct.get "hostname"
  .ok (none, some
    { v := 0
      t := "Expect-CT"
      d := natToBase36 when
      m := jsToStr hostname
      f := none })

/-- The classify-then-normalize body of `handleReport`: the unknown
fallthrough (lines 253-259) only logs and contributes neither `u`
nor `err`. -/
def normalize (body : JSVal) (when : Nat) : Except JSErr NormOut := do
  match ← kindOf body with
  | .csp => normCSP body when
  | .nel => normNEL body when
  | .deprecation => normDeprecation body when
  | .intervention => normIntervention body when
  | .crash => normCrash body when
  | .featurePolicy => normFeaturePolicy body when
  | .xss => normXSS body when
  | .expectCT => normExpectCT body when
  | .unknown => .ok (none, none)

/-! ## Beacon assembly and the HTTP route (src/index.js lines 27-92, 264). -/

/-- The beacon handed to `mPulse.sendBeacon`: `rt.tstart`, `rt.end`,
`http.initiator`, `ua`, `ip` always; `u`/`err` only when a normalizer
contributed them. -/
structure Beacon where
  tstart : Nat
  tend : Nat
  initiator : String
  ua : String
  ip : String
  u : Option JSVal
  err : Option String

/-- `handleReport(body, ua, ip)` at capture time `when`
(`when = +(new Date())`, line 84): build the base data, run the
normalizer chain, encode the record into `err`. -/
def handleReport (body : JSVal) (ua ip : String) (when : Nat) :
    Except JSErr Beacon := do
  let (u, rec) ← normalize body when
  .ok { tstart := when, tend := when, initiator := "error",
        ua := ua, ip := ip, u := u, err := rec.map stringifyNE }

/-- The HTTP response of `POST /report/:apiKey`: a request-level error
object, a success object with the handled count, or a handler
exception (fastify turns an uncaught throw into an error response;
no success/handled count is sent). -/
inductive Reply where
  | err (msg : String)
  | exn (e : JSErr)
  | ok (handled : Nat)
deriving DecidableEq

/-- The batch loop (lines 62-70): call `handleReport` per element,
counting; an uncaught exception aborts the loop (beacons already
dispatched stay dispatched). -/
def runReports (ua ip : String) (when : Nat) :
    List JSVal → Nat → List Beacon → Reply × List Beacon
  | [], handled, sent => (.ok handled, sent)
  | r :: rest, handled, sent =>
    match handleReport r ua ip when with
    | .ok b => runReports ua ip when rest (handled + 1) (sent ++ [b])
    | .error e => (.exn e, sent)

/-- `fastify.post("/report/:apiKey")` (lines 27-76): reject a falsy
body, a falsy apiKey, and an apiKey absent from `appLookup`
(apps.json) before any report is processed; then either iterate an
array body or treat the body as a batch of one. Returns the reply and
the beacons dispatched. -/
def postReport (appLookup : String → Option String) (body : JSVal)
    (apiKey : String) (ua ip : String) (when : Nat) : Reply × List Beacon :=
  if truthy body = false then (.err "No Request body", [])
  else if apiKey = "" then (.err "No API Key specified", [])
  else
    match appLookup apiKey with
    | none => (.err "Unknown API key", [])
    | some _ =>
      match body with
      | .arr reports => runReports ua ip when reports 0 []
      | b =>
        match handleReport b ua ip when with
        | .ok beacon => (.ok 1, [beacon])
        | .error e => (.exn e, [])

/-! ## Concrete payloads used to instantiate the theorems. -/

/-- A well-formed CSP report (legacy `csp-report` marker shape). -/
def cspExampleBody : JSVal :=
  .obj [("csp-report", .obj [
    ("document-uri", .str "https://x/page"),
    ("blocked-uri", .str "https://evil.com/a/b"),
    ("effective-directive", .str "script-src x y")])]

/-- A CSP report whose `csp-report` payload is missing every sub-field,
in particular `blocked-uri` (the shape line 106 crashes on). -/
def cspMissingFields : JSVal := .obj [("csp-report", .obj [])]

/-- A report classified CSP through `type === "csp"` that carries neither
a `csp-report` nor a `body` field (line 102 leaves `csp` undefined). -/
def cspTypeOnly : JSVal := .obj [("type", .str "csp")]

/-- The stray legacy CSP marker payload carried by `nelWithCspMarker`. -/
def cspMarkerOfNel : JSVal :=
  .obj [
    ("document-uri", .str "https://doc"),
    ("blocked-uri", .str "https://blocked.example/x"),
    ("violated-directive", .str "img-src cdn")]

/-- A report whose `type` names the recognized NEL kind while a legacy
`csp-report` marker for a different kind is also present. -/
def nelWithCspMarker : JSVal :=
  .obj [
    ("type", .str "network-error"),
    ("url", .str "https://page"),
    ("body", .obj [
      ("type", .str "dns.name_not_resolved"),
      ("protocol", .str "http/1.1"),
      ("method", .str "GET"),
      ("status_code", .num 0)]),
    ("csp-report", cspMarkerOfNel)]

/-- A report of a kind no normalizer recognizes. -/
def unknownExampleBody : JSVal := .obj [("type", .str "totally-new-kind")]

/-- A well-formed legacy XSS report. -/
def xssExampleBody : JSVal :=
  .obj [("xss-report", .obj [("request-url", .str "https://victim.example/q")])]

/-- A credential table with one known API key. -/
def demoLookup : String → Option String :=
  fun k => if k = "validKey" then some "secret" else none

/-- A CSP payload carrying only `violated-directive` (no
`effective-directive`) and a blocked URI with no path after the host. -/
def cspFallbackPayload : JSVal :=
  .obj [
    ("document-uri", .str "https://host/doc"),
    ("blocked-uri", .str "http://ads.example"),
    ("violated-directive", .str "img-src a")]

/-- A CSP report wrapping `cspFallbackPayload`. -/
def cspFallbackBody : JSVal := .obj [("csp-report", cspFallbackPayload)]

/-! ## Lemmas about the string helpers. -/

theorem isPrefixOf_length_le :
    ∀ {pat s : List Char}, pat.isPrefixOf s = true → pat.length ≤ s.length := by
  intro pat
  induction pat with
  | nil => intro s _; simp
  | cons a as ih =>
    intro s h
    cases s with
    | nil => simp [List.isPrefixOf] at h
    | cons b bs =>
      simp only [List.isPrefixOf, Bool.and_eq_true] at h
      simpa using ih h.2

theorem replFirst_of_no_occurrence (pat : List Char) :
    ∀ s, hasInfixL pat s = false → replFirst pat s = s := by
  intro s
  induction s with
  | nil => intro _; rfl
  | cons c cs ih =>
    intro h
    simp only [hasInfixL, Bool.or_eq_false_iff] at h
    simp [replFirst, h.1, ih h.2]

theorem replFirst_length_of_occurrence (pat : List Char) :
    ∀ s, hasInfixL pat s = true → (replFirst pat s).length + pat.length = s.length := by
  intro s
  induction s with
  | nil =>
    intro h
    simp only [hasInfixL] at h
    cases pat with
    | nil => simp [replFirst]
    | cons p ps => simp [List.isPrefixOf] at h
  | cons c cs ih =>
    intro h
    by_cases hpre : pat.isPrefixOf (c :: cs)
    · have hlen := isPrefixOf_length_le hpre
      simp only [replFirst, if_pos hpre, List.length_drop]
      simp only [List.length_cons] at hlen ⊢
      omega
    · simp only [hasInfixL, Bool.or_eq_true] at h
      rcases h with h | h
      · exact absurd h hpre
      · simp only [replFirst, if_neg hpre, List.length_cons]
        have := ih h
        omega

theorem replFirst_length_le (pat : List Char) :
    ∀ s, (replFirst pat s).length ≤ s.length := by
  intro s
  cases hinf : hasInfixL pat s with
  | false => simp [replFirst_of_no_occurrence pat s hinf]
  | true => have := replFirst_length_of_occurrence pat s hinf; omega

/-- C10: scheme stripping (used for the CSP `blocked-uri` at line 106 and
the XSS `request-url` at line 228) removes the first occurrence of the
literal `http://` and then the first occurrence of `https://`, wherever
they occur (not anchored to the start): a string containing either
substring anywhere gets strictly shorter, a string containing neither
(e.g. a `data:` URI) is unchanged, and only the first occurrence is
removed. -/
theorem stripScheme_first_occurrence_unanchored :
    (∀ s : String,
      ((hasSubstr s "http://" = false ∧ hasSubstr s "https://" = false) →
        stripScheme s = s) ∧
      ((hasSubstr s "http://" = true ∨ hasSubstr s "https://" = true) →
        (stripScheme s).length < s.length)) ∧
    stripScheme "x.y/http://evil.com" = "x.y/evil.com" ∧
    stripScheme "http://a/http://b" = "a/http://b" ∧
    stripScheme "data:image/png;base64,abc" = "data:image/png;base64,abc" := by
  refine ⟨fun s => ⟨?_, ?_⟩, by decide, by decide, by decide⟩
  · rintro ⟨h1, h2⟩
    obtain ⟨sd⟩ := s
    have g1 : hasInfixL "http://".data sd = false := h1
    have g2 : hasInfixL "https://".data sd = false := h2
    show (⟨replFirst "https://".data (replFirst "http://".data sd)⟩ : String) = ⟨sd⟩
    rw [replFirst_of_no_occurrence _ _ g1, replFirst_of_no_occurrence _ _ g2]
  · intro h
    obtain ⟨sd⟩ := s
    show (replFirst "https://".data (replFirst "http://".data sd)).length < sd.length
    have h7 : ("http://".data).length = 7 := by decide
    have h8 : ("https://".data).length = 8 := by decide
    rcases h with h | h
    · have g : hasInfixL "http://".data sd = true := h
      have e1 := replFirst_length_of_occurrence "http://".data sd g
      have e2 := replFirst_length_le "https://".data (replFirst "http://".data sd)
      omega
    · have g : hasInfixL "https://".data sd = true := h
      by_cases hh : hasInfixL "http://".data sd = true
      · have e1 := replFirst_length_of_occurrence "http://".data sd hh
        have e2 := replFirst_length_le "https://".data (replFirst "http://".data sd)
        omega
      · rw [replFirst_of_no_occurrence "http://".data sd (by simpa using hh)]
        have e1 := replFirst_length_of_occurrence "https://".data sd g
        omega

/-- Witness for the scheme-stripping theorem: a URL whose `https://`
occurs after other characters is shortened. -/
theorem stripScheme_first_occurrence_unanchored_witness :
    (hasSubstr "z-https://cdn.example" "http://" = true ∨
      hasSubstr "z-https://cdn.example" "https://" = true) ∧
    (stripScheme "z-https://cdn.example").length <
      ("z-https://cdn.example" : String).length :=
  ⟨Or.inr (by decide),
    (stripScheme_first_occurrence_unanchored.1 "z-https://cdn.example").2
      (Or.inr (by decide))⟩

/-! ## Lemmas about the `Except` chains of the normalizers. -/

theorem ok_bind {α β : Type} (a : α) (f : α → Except JSErr β) :
    ((Except.ok a : Except JSErr α) >>= f) = f a := rfl

theorem except_bind_ok {α β : Type} {x : Except JSErr α} {f : α → Except JSErr β}
    {b : β} (h : (x >>= f) = .ok b) : ∃ a, x = .ok a ∧ f a = .ok b := by
  cases x with
  | error e => simp only [Bind.bind, Except.bind] at h; exact absurd h (by simp)
  | ok a => exact ⟨a, rfl, by simpa only [Bind.bind, Except.bind] using h⟩

theorem normCSP_record {body : JSVal} {when : Nat} {u : Option JSVal}
    {rec : NormalizedError} (h : normCSP body when = .ok (u, some rec)) :
    rec.v = 0 ∧ rec.t = "Content Security Policy" ∧
      rec.d = natToBase36 when ∧ rec.f = none := by
  unfold normCSP at h
  obtain ⟨cm, h1, h⟩ := except_bind_ok h
  obtain ⟨csp, h2, h⟩ := except_bind_ok h
  obtain ⟨du, h3, h⟩ := except_bind_ok h
  obtain ⟨buVal, h4, h⟩ := except_bind_ok h
  obtain ⟨bu, h5, h⟩ := except_bind_ok h
  obtain ⟨edVal, h6, h⟩ := except_bind_ok h
  obtain ⟨dirVal, h7, h⟩ := except_bind_ok h
  obtain ⟨dir, h8, h⟩ := except_bind_ok h
  simp only [Except.ok.injEq, Prod.mk.injEq, Option.some.injEq] at h
  obtain ⟨-, hrec⟩ := h
  subst hrec
  simp [INCLUDE_FULL_REPORT]

theorem normNEL_record {body : JSVal} {when : Nat} {u : Option JSVal}
    {rec : NormalizedError} (h : normNEL body when = .ok (u, some rec)) :
    rec.v = 0 ∧ rec.t = "Network Error Logging" ∧
      rec.d = natToBase36 when ∧ rec.f = none := by
  unfold normNEL at h
  obtain ⟨nel, h1, h⟩ := except_bind_ok h
  obtain ⟨u2, h2, h⟩ := except_bind_ok h
  obtain ⟨ty, h3, h⟩ := except_bind_ok h
  obtain ⟨proto, h4, h⟩ := except_bind_ok h
  obtain ⟨meth, h5, h⟩ := except_bind_ok h
  obtain ⟨status, h6, h⟩ := except_bind_ok h
  simp only [Except.ok.injEq, Prod.mk.injEq, Option.some.injEq] at h
  obtain ⟨-, hrec⟩ := h
  subst hrec
  simp [INCLUDE_FULL_REPORT]

theorem normDeprecation_record {body : JSVal} {when : Nat} {u : Option JSVal}
    {rec : NormalizedError} (h : normDeprecation body when = .ok (u, some rec)) :
    rec.v = 0 ∧ rec.t = "Deprecation" ∧
      rec.d = natToBase36 when ∧ rec.f = none := by
  unfold normDeprecation at h
  obtain ⟨dep, h1, h⟩ := except_bind_ok h
  obtain ⟨u2, h2, h⟩ := except_bind_ok h
  obtain ⟨id, h3, h⟩ := except_bind_ok h
  obtain ⟨ar, h4, h⟩ := except_bind_ok h
  obtain ⟨detail, h5, h⟩ := except_bind_ok h
  simp only [Except.ok.injEq, Prod.mk.injEq, Option.some.injEq] at h
  obtain ⟨-, hrec⟩ := h
  subst hrec
  simp [INCLUDE_FULL_REPORT]

theorem normIntervention_record {body : JSVal} {when : Nat} {u : Option JSVal}
    {rec : NormalizedError} (h : normIntervention body when = .ok (u, some rec)) :
    rec.v = 0 ∧ rec.t = "Intervention" ∧
      rec.d = natToBase36 when ∧ rec.f = none := by
  unfold normIntervention at h
  obtain ⟨iv, h1, h⟩ := except_bind_ok h
  obtain ⟨u2, h2, h⟩ := except_bind_ok h
  obtain ⟨id, h3, h⟩ := except_bind_ok h
  obtain ⟨detail, h4, h⟩ := except_bind_ok h
  simp only [Except.ok.injEq, Prod.mk.injEq, Option.some.injEq] at h
  obtain ⟨-, hrec⟩ := h
  subst hrec
  simp [INCLUDE_FULL_REPORT]

theorem normCrash_record {body : JSVal} {when : Nat} {u : Option JSVal}
    {rec : NormalizedError} (h : normCrash body when = .ok (u, some rec)) :
    rec.v = 0 ∧ rec.t = "Crash" ∧ rec.d = natToBase36 when ∧ rec.f = none := by
  unfold normCrash at h
  obtain ⟨crash, h1, h⟩ := except_bind_ok h
  obtain ⟨u2, h2, h⟩ := except_bind_ok h
  obtain ⟨reason, h3, h⟩ := except_bind_ok h
  simp only [Except.ok.injEq, Prod.mk.injEq, Option.some.injEq] at h
  obtain ⟨-, hrec⟩ := h
  subst hrec
  simp [INCLUDE_FULL_REPORT]

theorem normFeaturePolicy_record {body : JSVal} {when : Nat} {u : Option JSVal}
    {rec : NormalizedError} (h : normFeaturePolicy body when = .ok (u, some rec)) :
    rec.v = 0 ∧ rec.t = "Feature Policy Violation" ∧
      rec.d = natToBase36 when ∧ rec.f = none := by
  unfold normFeaturePolicy at h
  obtain ⟨violation, h1, h⟩ := except_bind_ok h
  obtain ⟨u2, h2, h⟩ := except_bind_ok h
  obtain ⟨policyId, h3, h⟩ := except_bind_ok h
  simp only [Except.ok.injEq, Prod.mk.injEq, Option.some.injEq] at h
  obtain ⟨-, hrec⟩ := h
  subst hrec
  simp [INCLUDE_FULL_REPORT]

theorem normXSS_record {body : JSVal} {when : Nat} {u : Option JSVal}
    {rec : NormalizedError} (h : normXSS body when = .ok (u, some rec)) :
    rec.v = 0 ∧ rec.t = "XSS Report" ∧
      rec.d = natToBase36 when ∧ rec.f = none := by
  unfold normXSS at h
  obtain ⟨xss, h1, h⟩ := except_bind_ok h
  obtain ⟨ruVal, h2, h⟩ := except_bind_ok h
  obtain ⟨ru, h3, h⟩ := except_bind_ok h
  simp only [Except.ok.injEq, Prod.mk.injEq, Option.some.injEq] at h
  obtain ⟨-, hrec⟩ := h
  subst hrec
  simp [INCLUDE_FULL_REPORT]

theorem normExpectCT_record {body : JSVal} {when : Nat} {u : Option JSVal}
    {rec : NormalizedError} (h : normExpectCT body when = .ok (u, some rec)) :
    rec.v = 0 ∧ rec.t = "Expect-CT" ∧
      rec.d = natToBase36 when ∧ rec.f = none := by
  unfold normExpectCT at h
  obtain ⟨ct, h1, h⟩ := except_bind_ok h
  obtain ⟨hostname, h2, h⟩ := except_bind_ok h
  simp only [Except.ok.injEq, Prod.mk.injEq, Option.some.injEq] at h
  obtain ⟨-, hrec⟩ := h
  subst hrec
  simp

/-- Any record a recognized kind produces: schema version 0, dateToken
the base-36 timestamp, no detail in this build, title from the fixed
closed set. -/
theorem normalize_record {body : JSVal} {when : Nat} {u : Option JSVal}
    {rec : NormalizedError} (h : normalize body when = .ok (u, some rec)) :
    rec.v = 0 ∧ rec.d = natToBase36 when ∧ rec.f = none ∧
      rec.t ∈ ["Content Security Policy", "Network Error Logging",
        "Deprecation", "Intervention", "Crash", "Feature Policy Violation",
        "XSS Report", "Expect-CT"] := by
  unfold normalize at h
  obtain ⟨k, hk, h⟩ := except_bind_ok h
  cases k with
  | csp => obtain ⟨a, b, c, d⟩ := normCSP_record h; exact ⟨a, c, d, by simp [b]⟩
  | nel => obtain ⟨a, b, c, d⟩ := normNEL_record h; exact ⟨a, c, d, by simp [b]⟩
  | deprecation =>
    obtain ⟨a, b, c, d⟩ := normDeprecation_record h; exact ⟨a, c, d, by simp [b]⟩
  | intervention =>
    obtain ⟨a, b, c, d⟩ := normIntervention_record h; exact ⟨a, c, d, by simp [b]⟩
  | crash => obtain ⟨a, b, c, d⟩ := normCrash_record h; exact ⟨a, c, d, by simp [b]⟩
  | featurePolicy =>
    obtain ⟨a, b, c, d⟩ := normFeaturePolicy_record h; exact ⟨a, c, d, by simp [b]⟩
  | xss => obtain ⟨a, b, c, d⟩ := normXSS_record h; exact ⟨a, c, d, by simp [b]⟩
  | expectCT =>
    obtain ⟨a, b, c, d⟩ := normExpectCT_record h; exact ⟨a, c, d, by simp [b]⟩
  | unknown => simp at h

/-- C8: for every report of a recognized kind processed at capture time
`when`, the encoded error record has schema version `v = 0`, a title `t`
drawn from the fixed closed set of eight kind names, and dateToken `d`
equal to the base-36 string of `when`. -/
theorem record_schema_title_dateToken (body : JSVal) (when : Nat)
    (u : Option JSVal) (rec : NormalizedError)
    (h : normalize body when = .ok (u, some rec)) :
    rec.v = 0 ∧
      rec.t ∈ ["Content Security Policy", "Network Error Logging",
        "Deprecation", "Intervention", "Crash", "Feature Policy Violation",
        "XSS Report", "Expect-CT"] ∧
      rec.d = natToBase36 when := by
  obtain ⟨a, c, d, t⟩ := normalize_record h
  exact ⟨a, t, c⟩

/-- Witness for the record-invariant theorem at a concrete CSP report. -/
theorem record_schema_title_dateToken_witness :
    normalize cspExampleBody 0 = .ok (some (.str "https://x/page"),
      some ⟨0, "Content Security Policy", "0", "script-src: evil.com", none⟩) ∧
    (0 = 0 ∧
      "Content Security Policy" ∈ ["Content Security Policy",
        "Network Error Logging", "Deprecation", "Intervention", "Crash",
        "Feature Policy Violation", "XSS Report", "Expect-CT"] ∧
      "0" = natToBase36 0) := by
  have hn : normalize cspExampleBody 0 = .ok (some (.str "https://x/page"),
      some ⟨0, "Content Security Policy", "0", "script-src: evil.com", none⟩) := rfl
  exact ⟨hn, record_schema_title_dateToken cspExampleBody 0 _ _ hn⟩

/-- C9: the full-report flag is the compile-time constant `false`, so no
record of any kind ever carries a detail payload (`f` field): the detail
branches are unreachable in this build. -/
theorem full_report_flag_off_no_detail :
    INCLUDE_FULL_REPORT = false ∧
    ∀ (body : JSVal) (when : Nat) (u : Option JSVal) (rec : NormalizedError),
      normalize body when = .ok (u, some rec) → rec.f = none :=
  ⟨rfl, fun _ _ _ _ h => (normalize_record h).2.2.1⟩

/-- Witness for the no-detail theorem at a concrete XSS report. -/
theorem full_report_flag_off_no_detail_witness :
    normalize xssExampleBody 0 = .ok (none,
      some ⟨0, "XSS Report", "0", "victim.example/q", none⟩) ∧
    (some ⟨0, "XSS Report", "0", "victim.example/q", none⟩ :
        Option NormalizedError).elim True (fun r => r.f = none) := by
  have hn : normalize xssExampleBody 0 = .ok (none,
      some ⟨0, "XSS Report", "0", "victim.example/q", none⟩) := rfl
  exact ⟨hn, full_report_flag_off_no_detail.2 xssExampleBody 0 _ _ hn⟩

/-- C6: every beacon assembled at capture time `when` has
`rt.tstart = rt.end = when` and `http.initiator = "error"`; an
unknown-kind report produces, without raising, the beacon holding only
the base context fields (`u` and `err` omitted). -/
theorem beacon_timestamps_initiator_and_unknown (body : JSVal)
    (ua ip : String) (when : Nat) :
    (∀ b : Beacon, handleReport body ua ip when = .ok b →
      b.tstart = when ∧ b.tend = when ∧ b.initiator = "error") ∧
    (kindOf body = .ok .unknown →
      handleReport body ua ip when = .ok
        { tstart := when, tend := when, initiator := "error",
          ua := ua, ip := ip, u := none, err := none }) := by
  constructor
  · intro b h
    unfold handleReport at h
    obtain ⟨out, h1, h⟩ := except_bind_ok h
    obtain ⟨uo, ro⟩ := out
    simp only [Except.ok.injEq] at h
    subst h
    simp
  · intro hk
    unfold handleReport normalize
    rw [hk]
    rfl

/-- Witness for the beacon theorem at an unrecognized report. -/
theorem beacon_timestamps_initiator_and_unknown_witness :
    kindOf unknownExampleBody = .ok .unknown ∧
    handleReport unknownExampleBody "UA" "1.2.3.4" 5 = .ok
      { tstart := 5, tend := 5, initiator := "error",
        ua := "UA", ip := "1.2.3.4", u := none, err := none } ∧
    (5 : Nat) = 5 ∧ "error" = "error" := by
  have h := beacon_timestamps_initiator_and_unknown unknownExampleBody "UA" "1.2.3.4" 5
  have hk : kindOf unknownExampleBody = .ok .unknown := rfl
  have hb := h.2 hk
  exact ⟨hk, hb, (h.1 _ hb).1, rfl⟩

/-- If one property read on `v` succeeds, `v` is not `undefined`/`null`,
so every property read on `v` succeeds. -/
theorem get_ok_of_get_ok {v : JSVal} {k : String} {x : JSVal}
    (h : v.get k = .ok x) (k2 : String) : ∃ y, v.get k2 = .ok y := by
  cases v <;> simp [JSVal.get] at h ⊢

/-- C1: a CSP report - classified by `type === "csp"` or a truthy
`csp-report` marker - whose payload (`csp-report || body`) carries the
required sub-fields normalizes to `u` = the payload's `document-uri` and
message `<directive>: <blockedHost>`: the directive is
`effective-directive` when present (a non-empty string), else
`violated-directive`, truncated at its first space; the blocked host is
`blocked-uri` with the `http://`/`https://` scheme stripped and
truncated at the first `/` after the host (unchanged when it has
none). -/
theorem csp_message_and_u (body : JSVal) (when : Nat)
    (ty cm bodyField du : JSVal) (bu dir : String)
    (hty : body.get "type" = .ok ty)
    (hcm : body.get "csp-report" = .ok cm)
    (hbranch : (ty.eqStr "csp" || truthy cm) = true)
    (hbf : body.get "body" = .ok bodyField)
    (hdu : (jsOr cm bodyField).get "document-uri" = .ok du)
    (hbu : (jsOr cm bodyField).get "blocked-uri" = .ok (.str bu))
    (hdir :
      ((jsOr cm bodyField).get "effective-directive" = .ok (.str dir) ∧ dir ≠ "") ∨
      ((jsOr cm bodyField).get "effective-directive" = .ok .undefined ∧
        (jsOr cm bodyField).get "violated-directive" = .ok (.str dir))) :
    normalize body when = .ok (some du, some
      { v := 0, t := "Content Security Policy", d := natToBase36 when,
        m := truncAtFirst dir ' ' ++ ": " ++ truncAtFirst (stripScheme bu) '/',
        f := none }) := by
  unfold normalize kindOf
  rw [hty, hcm]
  simp only [ok_bind, hbranch, if_true]
  unfold normCSP
  rw [hcm, hbf]
  simp only [ok_bind]
  rw [hdu, hbu]
  simp only [ok_bind, JSVal.requireStr]
  rcases hdir with ⟨hed, hne⟩ | ⟨hed, hvd⟩
  · obtain ⟨vd, hvd⟩ := get_ok_of_get_ok hed "violated-directive"
    rw [hed, hvd]
    simp only [ok_bind]
    have : jsOr (.str dir) vd = .str dir := by simp [jsOr, truthy, hne]
    rw [this]
    simp [INCLUDE_FULL_REPORT, JSVal.requireStr, ok_bind]
  · rw [hed, hvd]
    simp only [ok_bind]
    have : jsOr JSVal.undefined (.str dir) = .str dir := by simp [jsOr, truthy]
    rw [this]
    simp [INCLUDE_FULL_REPORT, JSVal.requireStr, ok_bind]

/-- Witness for the CSP normalization theorem: the fallback directive
case with a path-less blocked URI. -/
theorem csp_message_and_u_witness :
    cspFallbackBody.get "type" = .ok .undefined ∧
    cspFallbackBody.get "csp-report" = .ok cspFallbackPayload ∧
    (JSVal.eqStr .undefined "csp" || truthy cspFallbackPayload) = true ∧
    cspFallbackBody.get "body" = .ok .undefined ∧
    (jsOr cspFallbackPayload .undefined).get "document-uri" =
      .ok (.str "https://host/doc") ∧
    (jsOr cspFallbackPayload .undefined).get "blocked-uri" =
      .ok (.str "http://ads.example") ∧
    (jsOr cspFallbackPayload .undefined).get "effective-directive" = .ok .undefined ∧
    (jsOr cspFallbackPayload .undefined).get "violated-directive" =
      .ok (.str "img-src a") ∧
    normalize cspFallbackBody 0 = .ok (some (.str "https://host/doc"), some
      { v := 0, t := "Content Security Policy", d := natToBase36 0,
        m := truncAtFirst "img-src a" ' ' ++ ": " ++
          truncAtFirst (stripScheme "http://ads.example") '/',
        f := none }) := by
  refine ⟨rfl, rfl, rfl, rfl, rfl, rfl, rfl, rfl, ?_⟩
  exact csp_message_and_u cspFallbackBody 0 .undefined cspFallbackPayload .undefined
    (.str "https://host/doc") "http://ads.example" "img-src a"
    rfl rfl rfl rfl rfl rfl (Or.inr ⟨rfl, rfl⟩)

/-- C3 counterexample: a report whose `type` names the recognized NEL
kind but which also carries a legacy `csp-report` marker is classified
and normalized as CSP, not as the kind its `type` field names - the
first branch of the chain tests `type === "csp" || body["csp-report"]`,
so the marker overrides a `type` selecting a different normalizer. -/
theorem classification_type_priority_counterexample :
    kindOf nelWithCspMarker = .ok Kind.csp ∧
    Kind.csp ≠ Kind.nel ∧
    normalize nelWithCspMarker 0 = .ok (some (.str "https://doc"),
      some ⟨0, "Content Security Policy", "0", "img-src: blocked.example", none⟩) :=
  ⟨rfl, by decide, rfl⟩

/-- C3 (amended): the chain checks the CSP test
(`type === "csp"` or a truthy `csp-report` marker) first - so the
marker wins even when `type` names a different recognized kind - then
the `type` discriminator for the five Reporting-API kinds, then the
`xss-report` and `expect-ct-report` markers; a report matching none of
these is classified unknown and no exception is raised. -/
theorem classification_chain_order (body : JSVal) (ty cm : JSVal)
    (hty : body.get "type" = .ok ty)
    (hcm : body.get "csp-report" = .ok cm) :
    (truthy cm = true → kindOf body = .ok .csp) ∧
    (ty.eqStr "csp" = true → kindOf body = .ok .csp) ∧
    (∀ xm ctm : JSVal, body.get "xss-report" = .ok xm →
      body.get "expect-ct-report" = .ok ctm →
      ty.eqStr "csp" = false → truthy cm = false →
      ty.eqStr "network-error" = false → ty.eqStr "deprecation" = false →
      ty.eqStr "intervention" = false → ty.eqStr "crash" = false →
      ty.eqStr "feature-policy-violation" = false →
      truthy xm = false → truthy ctm = false →
      kindOf body = .ok .unknown ∧
      ∀ ua ip when, handleReport body ua ip when =
        .ok ⟨when, when, "error", ua, ip, none, none⟩) := by
  refine ⟨?_, ?_, ?_⟩
  · intro h
    unfold kindOf
    rw [hty, hcm]
    simp [ok_bind, h]
  · intro h
    unfold kindOf
    rw [hty, hcm]
    simp [ok_bind, h]
  · intro xm ctm hxm hctm h1 h2 h3 h4 h5 h6 h7 h8 h9
    have hk : kindOf body = .ok .unknown := by
      unfold kindOf
      rw [hty, hcm]
      simp only [ok_bind, h1, h2, h3, h4, h5, h6, h7, Bool.or_self, if_false,
        Bool.false_eq_true]
      rw [hxm]
      simp only [ok_bind, h8, Bool.false_eq_true, if_false]
      rw [hctm]
      simp only [ok_bind, h9, Bool.false_eq_true, if_false]
    refine ⟨hk, fun ua ip when => ?_⟩
    unfold handleReport normalize
    rw [hk]
    rfl

/-- Witness for the classification-order theorem: the marker-precedence
case, the `type === "csp"` case and the unknown case. -/
theorem classification_chain_order_witness :
    (truthy cspMarkerOfNel = true ∧ kindOf nelWithCspMarker = .ok .csp) ∧
    (JSVal.eqStr (.str "csp") "csp" = true ∧ kindOf cspTypeOnly = .ok .csp) ∧
    (kindOf (JSVal.obj []) = .ok .unknown ∧
      handleReport (JSVal.obj []) "A" "B" 3 =
        .ok ⟨3, 3, "error", "A", "B", none, none⟩) := by
  have h1 := (classification_chain_order nelWithCspMarker
    (.str "network-error") cspMarkerOfNel rfl rfl).1 rfl
  have h2 := (classification_chain_order cspTypeOnly
    (.str "csp") .undefined rfl rfl).2.1 rfl
  have h3 := (classification_chain_order (JSVal.obj [])
    .undefined .undefined rfl rfl).2.2 .undefined .undefined rfl rfl rfl rfl rfl rfl rfl rfl rfl rfl rfl
  exact ⟨⟨rfl, h1⟩, ⟨rfl, h2⟩, h3.1, h3.2 "A" "B" 3⟩

/-- C2 (the spec mandates safe degradation; §9 calls the source
behavior a latent defect): a recognized-kind report missing a required
sub-field raises an uncaught TypeError and aborts the rest of the
batch. A CSP report with an empty `csp-report` payload (no
`blocked-uri`) throws at line 106; a report with `type: "csp"` but
neither `csp-report` nor `body` throws at line 104; in a batch, the
throw prevents every later element from being processed and no handled
count is returned. -/
theorem missing_subfield_throws_and_aborts_batch :
    handleReport cspMissingFields "UA" "ip" 0 = .error .typeError ∧
    handleReport cspTypeOnly "UA" "ip" 0 = .error .typeError ∧
    postReport demoLookup (.arr [cspMissingFields, xssExampleBody])
      "validKey" "UA" "ip" 0 = (.exn .typeError, []) :=
  ⟨rfl, rfl, rfl⟩

/-- C7: a falsy request body, a falsy API key, or an API key absent
from the credential table yields a request-level error object (no
success/handled count) and no report is normalized and no beacon
dispatched. -/
theorem request_level_errors_stop_processing
    (appLookup : String → Option String) (body : JSVal) (apiKey : String)
    (ua ip : String) (when : Nat)
    (h : truthy body = false ∨ apiKey = "" ∨ appLookup apiKey = none) :
    ∃ msg, postReport appLookup body apiKey ua ip when = (.err msg, []) := by
  unfold postReport
  rcases h with h | h | h
  · exact ⟨"No Request body", by simp [h]⟩
  · by_cases hb : truthy body = false
    · exact ⟨"No Request body", by simp [hb]⟩
    · exact ⟨"No API Key specified", by simp [hb, h]⟩
  · by_cases hb : truthy body = false
    · exact ⟨"No Request body", by simp [hb]⟩
    · by_cases hk : apiKey = ""
      · exact ⟨"No API Key specified", by simp [hb, hk]⟩
      · exact ⟨"Unknown API key", by simp [hb, hk, h]⟩

/-- Witness for the request-level error theorem: an unknown API key
with a valid body. -/
theorem request_level_errors_stop_processing_witness :
    (truthy xssExampleBody = false ∨ ("nonexistentKey" : String) = "" ∨
      demoLookup "nonexistentKey" = none) ∧
    ∃ msg, postReport demoLookup xssExampleBody "nonexistentKey" "UA" "ip" 0 =
      (.err msg, []) := by
  have h : demoLookup "nonexistentKey" = none := by
    simp [demoLookup]
  exact ⟨Or.inr (Or.inr h),
    request_level_errors_stop_processing demoLookup xssExampleBody
      "nonexistentKey" "UA" "ip" 0 (Or.inr (Or.inr h))⟩

/-- When every element of the batch normalizes without raising, the loop
counts every element and dispatches one beacon per element. -/
theorem runReports_all_ok (ua ip : String) (when : Nat) :
    ∀ (reports : List JSVal) (handled : Nat) (sent : List Beacon),
      (∀ r ∈ reports, ∃ b, handleReport r ua ip when = .ok b) →
      ∃ bs, runReports ua ip when reports handled sent =
        (.ok (handled + reports.length), sent ++ bs) ∧
        bs.length = reports.length := by
  intro reports
  induction reports with
  | nil => intro handled sent _; exact ⟨[], by simp [runReports], rfl⟩
  | cons r rest ih =>
    intro handled sent h
    obtain ⟨b, hb⟩ := h r (by simp)
    obtain ⟨bs, hrun, hlen⟩ :=
      ih (handled + 1) (sent ++ [b]) (fun x hx => h x (by simp [hx]))
    refine ⟨b :: bs, ?_, by simp [hlen]⟩
    simp only [runReports, hb]
    rw [hrun]
    simp only [Prod.mk.injEq, List.append_assoc, List.singleton_append,
      List.length_cons, Reply.ok.injEq]
    exact ⟨by omega, trivial⟩

/-- C5 counterexample: a two-element array whose second element is a
recognized-kind report that raises during normalization does not yield
`handled = 2` - the loop aborts with the exception (after the first
element's beacon was already dispatched) and no handled count is
returned. -/
theorem batch_handled_count_counterexample :
    postReport demoLookup (.arr [unknownExampleBody, cspTypeOnly])
      "validKey" "UA" "ip" 0 =
      (.exn .typeError, [⟨0, 0, "error", "UA", "ip", none, none⟩]) ∧
    Reply.exn .typeError ≠ .ok 2 :=
  ⟨rfl, by decide⟩

/-- C5 (amended): provided no element raises a per-report normalization
exception (see the missing-sub-field defect), an array body of n
reports runs each element through the pipeline, dispatches one beacon
per element and answers `handled = n` whether or not elements were of
recognized kinds; a non-array body is treated as a batch of one. -/
theorem batch_handled_count_amended (appLookup : String → Option String)
    (apiKey ua ip : String) (when : Nat) (sk : String)
    (hkey : apiKey ≠ "") (hlook : appLookup apiKey = some sk) :
    (∀ reports : List JSVal,
      (∀ r ∈ reports, ∃ b, handleReport r ua ip when = .ok b) →
      ∃ bs, postReport appLookup (.arr reports) apiKey ua ip when =
        (.ok reports.length, bs) ∧ bs.length = reports.length) ∧
    (∀ (body : JSVal) (b : Beacon), (∀ elems, body ≠ .arr elems) →
      truthy body = true → handleReport body ua ip when = .ok b →
      postReport appLookup body apiKey ua ip when = (.ok 1, [b])) := by
  constructor
  · intro reports hok
    obtain ⟨bs, hrun, hlen⟩ := runReports_all_ok ua ip when reports 0 [] hok
    refine ⟨bs, ?_, hlen⟩
    unfold postReport
    simp only [truthy, Bool.true_eq_false, if_false, hkey, hlook]
    simpa using hrun
  · intro body b hnot htr hhr
    unfold postReport
    cases body with
    | arr elems => exact absurd rfl (hnot elems)
    | undefined => simp [truthy] at htr
    | null => simp [truthy] at htr
    | bool v => simp only [htr, Bool.true_eq_false, if_false, hlook]; simp [hkey, hhr]
    | num n => simp only [htr, Bool.true_eq_false, if_false, hlook]; simp [hkey, hhr]
    | str s => simp only [htr, Bool.true_eq_false, if_false, hlook]; simp [hkey, hhr]
    | obj fs => simp only [htr, Bool.true_eq_false, if_false, hlook]; simp [hkey, hhr]

/-- Witness for the amended batch theorem: a two-element batch of an
unknown-kind report and an XSS report, and a non-array body. -/
theorem batch_handled_count_amended_witness :
    (("validKey" : String) ≠ "" ∧ demoLookup "validKey" = some "secret") ∧
    (∀ r ∈ [unknownExampleBody, xssExampleBody],
      ∃ b, handleReport r "UA" "ip" 0 = .ok b) ∧
    (∃ bs, postReport demoLookup (.arr [unknownExampleBody, xssExampleBody])
      "validKey" "UA" "ip" 0 = (.ok 2, bs) ∧ bs.length = 2) ∧
    postReport demoLookup unknownExampleBody "validKey" "UA" "ip" 0 =
      (.ok 1, [⟨0, 0, "error", "UA", "ip", none, none⟩]) := by
  have hkey : ("validKey" : String) ≠ "" := by decide
  have hlook : demoLookup "validKey" = some "secret" := rfl
  have hok : ∀ r ∈ [unknownExampleBody, xssExampleBody],
      ∃ b, handleReport r "UA" "ip" 0 = .ok b := by
    intro r hr
    simp only [List.mem_cons, List.not_mem_nil, or_false] at hr
    rcases hr with rfl | rfl
    · exact ⟨⟨0, 0, "error", "UA", "ip", none, none⟩, rfl⟩
    · exact ⟨⟨0, 0, "error", "UA", "ip", none,
        some (stringifyNE ⟨0, "XSS Report", "0", "victim.example/q", none⟩)⟩, rfl⟩
  have h := batch_handled_count_amended demoLookup "validKey" "UA" "ip" 0 "secret"
    hkey hlook
  refine ⟨⟨hkey, hlook⟩, hok, h.1 _ hok, ?_⟩
  exact h.2 unknownExampleBody ⟨0, 0, "error", "UA", "ip", none, none⟩
    (fun elems => by simp [unknownExampleBody]) rfl rfl

/-! ## Round-trip of the wire format: character-level lemmas. -/

theorem char_toNat_lt (c : Char) : c.toNat < 1114112 := by
  rcases c.valid with h | ⟨_, h⟩
  · exact Nat.lt_trans h (by norm_num)
  · exact h

theorem toNat_ofNat_lt {m : Nat} (h : m < 55296) : (Char.ofNat m).toNat = m := by
  have hv : m.isValidChar := Or.inl h
  rw [Char.ofNat, dif_pos hv]
  rfl

theorem hexVal_digit36 {d : Nat} (h : d < 16) : hexVal (digit36Chr d) = d := by
  interval_cases d <;> decide

theorem digit36_ne_star {d : Nat} (h : d < 16) : digit36Chr d ≠ starCh := by
  interval_cases d <;> decide

theorem safe_not_special {c : Char} (h : jsurlSafe c = true) :
    c ≠ tildeCh ∧ c ≠ closeCh ∧ c ≠ bangCh ∧ c ≠ starCh := by
  refine ⟨?_, ?_, ?_, ?_⟩ <;> rintro rfl <;> revert h <;> decide

theorem fromHex2_toHex2 {n : Nat} (h : n < 256) :
    fromHex2 (digit36Chr (n / 16 % 16)) (digit36Chr (n % 16)) = n := by
  unfold fromHex2
  rw [hexVal_digit36 (by omega), hexVal_digit36 (by omega)]
  omega

theorem fromHex4_toHex4 {n : Nat} (h : n < 65536) :
    fromHex4 (digit36Chr (n / 4096 % 16)) (digit36Chr (n / 256 % 16))
      (digit36Chr (n / 16 % 16)) (digit36Chr (n % 16)) = n := by
  unfold fromHex4
  rw [hexVal_digit36 (by omega), hexVal_digit36 (by omega),
    hexVal_digit36 (by omega), hexVal_digit36 (by omega)]
  omega

theorem fromHex6_toHex6 {n : Nat} (h : n < 16777216) :
    fromHex6 (digit36Chr (n / 1048576 % 16)) (digit36Chr (n / 65536 % 16))
      (digit36Chr (n / 4096 % 16)) (digit36Chr (n / 256 % 16))
      (digit36Chr (n / 16 % 16)) (digit36Chr (n % 16)) = n := by
  unfold fromHex6
  rw [hexVal_digit36 (by omega), hexVal_digit36 (by omega),
    hexVal_digit36 (by omega), hexVal_digit36 (by omega),
    hexVal_digit36 (by omega), hexVal_digit36 (by omega)]
  omega

theorem readEscape_hex2 (a b : Char) (X : List Char) (ha : a ≠ starCh) :
    readEscape (a :: b :: X) = some (Char.ofNat (fromHex2 a b), X) := by
  rw [readEscape, if_neg ha, readHex2Tail]

theorem readEscape_hex4 (a b c d : Char) (X : List Char) (ha : a ≠ starCh) :
    readEscape (starCh :: a :: b :: c :: d :: X) =
      some (Char.ofNat (fromHex4 a b c d), X) := by
  rw [readEscape, if_pos rfl, readEscapeStar, if_neg ha, readHex4Tail]

theorem readEscape_hex6 (a b c d e f : Char) (X : List Char) :
    readEscape (starCh :: starCh :: a :: b :: c :: d :: e :: f :: X) =
      some (Char.ofNat (fromHex6 a b c d e f), X) := by
  rw [readEscape, if_pos rfl, readEscapeStar, if_pos rfl, readHex6Tail]

theorem encodeChar_length_pos (c : Char) : 1 ≤ (encodeChar c).length := by
  unfold encodeChar
  repeat' split
  all_goals simp [toHex2, toHex4, toHex6]

theorem length_le_encodeStrChars (cs : List Char) :
    cs.length ≤ (encodeStrChars cs).length := by
  induction cs with
  | nil => simp [encodeStrChars]
  | cons c cs ih =>
    have h := encodeChar_length_pos c
    simp only [encodeStrChars, List.map_cons, List.flatten_cons,
      List.length_append, List.length_cons] at ih ⊢
    omega

/-- Decoding inverts encoding for any string value, given enough fuel
and a legal terminator. -/
theorem decodeAux_encode (cs : List Char) :
    ∀ (fuel : Nat) (rest : List Char), cs.length ≤ fuel →
      termHeadB rest = true →
      decodeAux fuel (encodeStrChars cs ++ rest) = (cs, rest) := by
  induction cs with
  | nil =>
    intro fuel rest _ h
    simp only [encodeStrChars, List.map_nil, List.flatten_nil, List.nil_append]
    cases fuel with
    | zero => rfl
    | succ f =>
      cases rest with
      | nil => rfl
      | cons c t =>
        have hc : c = tildeCh ∨ c = closeCh := by
          simpa only [termHeadB, Bool.or_eq_true, beq_iff_eq] using h
        rw [decodeAux, if_pos hc]
  | cons c cs ih =>
    intro fuel rest hf h
    obtain ⟨f, rfl⟩ : ∃ f, fuel = f + 1 :=
      ⟨fuel - 1, by simp only [List.length_cons] at hf; omega⟩
    have hrec := ih f rest (by simp only [List.length_cons] at hf; omega) h
    have hsplit : encodeStrChars (c :: cs) ++ rest
        = encodeChar c ++ (encodeStrChars cs ++ rest) := by
      simp [encodeStrChars]
    rw [hsplit]
    have hne1 : ¬(starCh = tildeCh ∨ starCh = closeCh) := by decide
    have hne2 : starCh ≠ bangCh := by decide
    by_cases hsafe : jsurlSafe c = true
    · obtain ⟨h1, h2, h3, h4⟩ := safe_not_special hsafe
      have hne : ¬(c = tildeCh ∨ c = closeCh) := by
        rintro (rfl | rfl) <;> simp at h1 h2
      have he : encodeChar c = [c] := by
        unfold encodeChar; rw [if_pos hsafe]
      rw [he, List.singleton_append, decodeAux, if_neg hne, if_neg h3,
        if_neg h4, hrec]
    · by_cases hdol : c = dollarCh
      · subst hdol
        have he : encodeChar dollarCh = [bangCh] := by decide
        have hne : ¬(bangCh = tildeCh ∨ bangCh = closeCh) := by decide
        rw [he, List.singleton_append, decodeAux, if_neg hne, if_pos rfl, hrec]
      · by_cases h256 : c.toNat < 256
        · have he : encodeChar c = starCh :: toHex2 c.toNat := by
            unfold encodeChar; rw [if_neg hsafe, if_neg hdol, if_pos h256]
          rw [he, toHex2]
          simp only [List.cons_append, List.nil_append]
          rw [decodeAux, if_neg hne1, if_neg hne2, if_pos rfl,
            readEscape_hex2 _ _ _ (digit36_ne_star (by omega))]
          simp only [Option.elim]
          rw [hrec, fromHex2_toHex2 h256, Char.ofNat_toNat]
        · by_cases h65536 : c.toNat < 65536
          · have he : encodeChar c = starCh :: starCh :: toHex4 c.toNat := by
              unfold encodeChar
              rw [if_neg hsafe, if_neg hdol, if_neg h256, if_pos h65536]
            rw [he, toHex4]
            simp only [List.cons_append, List.nil_append]
            rw [decodeAux, if_neg hne1, if_neg hne2, if_pos rfl,
              readEscape_hex4 _ _ _ _ _ (digit36_ne_star (by omega))]
            simp only [Option.elim]
            rw [hrec, fromHex4_toHex4 h65536, Char.ofNat_toNat]
          · have he : encodeChar c
                = starCh :: starCh :: starCh :: toHex6 c.toNat := by
              unfold encodeChar
              rw [if_neg hsafe, if_neg hdol, if_neg h256, if_neg h65536]
            rw [he, toHex6]
            simp only [List.cons_append, List.nil_append]
            rw [decodeAux, if_neg hne1, if_neg hne2, if_pos rfl, readEscape_hex6]
            simp only [Option.elim]
            have hbound : c.toNat < 16777216 :=
              Nat.lt_trans (char_toNat_lt c) (by norm_num)
            rw [hrec, fromHex6_toHex6 hbound, Char.ofNat_toNat]

/-- Decoding inverts encoding for any string value, up to a legal
terminator. -/
theorem decodeStrL_encode (cs rest : List Char) (h : termHeadB rest = true) :
    decodeStrL (encodeStrChars cs ++ rest) = (cs, rest) := by
  unfold decodeStrL
  refine decodeAux_encode cs _ rest ?_ h
  have := length_le_encodeStrChars cs
  simp only [List.length_append]
  omega

/-! ## Round-trip of the wire format: token-level lemmas. -/

theorem opt_some_bind {α β : Type} (a : α) (f : α → Option β) :
    ((some a : Option α) >>= f) = f a := rfl

theorem data_mk (l : List Char) : (String.mk l).data = l := rfl

theorem stripPre_append (p : List Char) :
    ∀ rest, stripPre p (p ++ rest) = some rest := by
  induction p with
  | nil => intro rest; rfl
  | cons a ps ih =>
    intro rest
    simp only [List.cons_append, stripPre, if_pos rfl]
    exact ih rest

theorem termHeadB_tick (k : Char) (R : List Char) :
    termHeadB (tickSeq k ++ R) = true := by
  simp [tickSeq, termHeadB]

theorem termHeadB_tilde (R : List Char) : termHeadB (tildeCh :: R) = true := by
  simp [termHeadB]

theorem termHeadB_close (R : List Char) : termHeadB (closeCh :: R) = true := by
  simp [termHeadB]

theorem takeWhile_append_all {p : Char → Bool} :
    ∀ (l r : List Char), (∀ x ∈ l, p x = true) →
      (l ++ r).takeWhile p = l ++ r.takeWhile p ∧
      (l ++ r).dropWhile p = r.dropWhile p := by
  intro l
  induction l with
  | nil => intro r _; simp
  | cons a l ih =>
    intro r h
    have ha : p a = true := h a (by simp)
    obtain ⟨h1, h2⟩ := ih r (fun x hx => h x (by simp [hx]))
    simp [List.takeWhile_cons, List.dropWhile_cons, ha, h1, h2]

theorem digits_stop (rest : List Char) (h : termHeadB rest = true) :
    rest.takeWhile isDigitCh = [] ∧ rest.dropWhile isDigitCh = rest := by
  cases rest with
  | nil => simp
  | cons c t =>
    have hc : c = tildeCh ∨ c = closeCh := by
      simpa only [termHeadB, Bool.or_eq_true, beq_iff_eq] using h
    have hd : isDigitCh c = false := by
      rcases hc with rfl | rfl <;> decide
    simp [List.takeWhile_cons, List.dropWhile_cons, hd]

theorem digit36Chr_toNat {d : Nat} (h : d < 10) : (digit36Chr d).toNat = 48 + d := by
  unfold digit36Chr
  rw [if_pos h]
  exact toNat_ofNat_lt (by omega)

theorem digit36Chr_isDigit {d : Nat} (h : d < 10) :
    isDigitCh (digit36Chr d) = true := by
  interval_cases d <;> decide

theorem natChars_all_digits (n : Nat) :
    ∀ x ∈ natChars n, isDigitCh x = true := by
  intro x hx
  unfold natChars at hx
  by_cases h0 : n = 0
  · rw [if_pos h0] at hx
    simp only [List.mem_singleton] at hx
    subst hx
    decide
  · rw [if_neg h0] at hx
    simp only [List.mem_map, List.mem_reverse] at hx
    obtain ⟨d, hd, rfl⟩ := hx
    exact digit36Chr_isDigit (Nat.digits_lt_base (by norm_num) hd)

theorem natChars_ne_nil (n : Nat) : natChars n ≠ [] := by
  unfold natChars
  by_cases h0 : n = 0
  · rw [if_pos h0]; simp
  · rw [if_neg h0]
    simp [Nat.digits_ne_nil_iff_ne_zero, h0]

theorem foldl_digit_chars (L : List Nat) (hL : ∀ d ∈ L, d < 10) :
    natOfDigitChars (L.reverse.map digit36Chr) = Nat.ofDigits 10 L := by
  induction L with
  | nil => rfl
  | cons d L ih =>
    have hd : d < 10 := hL d (by simp)
    simp only [List.reverse_cons, List.map_append, List.map_cons, List.map_nil]
    unfold natOfDigitChars
    rw [List.foldl_append]
    simp only [List.foldl_cons, List.foldl_nil]
    have hrec := ih (fun x hx => hL x (by simp [hx]))
    unfold natOfDigitChars at hrec
    rw [hrec, digit36Chr_toNat hd, Nat.ofDigits_cons]
    omega

theorem natOfDigitChars_natChars (n : Nat) :
    natOfDigitChars (natChars n) = n := by
  unfold natChars
  by_cases h0 : n = 0
  · subst h0
    rw [if_pos rfl]
    decide
  · rw [if_neg h0,
      foldl_digit_chars _ (fun d hd => Nat.digits_lt_base (by norm_num) hd),
      Nat.ofDigits_digits]

theorem readNatTok_natChars (n : Nat) (rest : List Char)
    (h : termHeadB rest = true) :
    readNatTok (natChars n ++ rest) = some (n, rest) := by
  obtain ⟨ht, hd⟩ := digits_stop rest h
  obtain ⟨h1, h2⟩ := takeWhile_append_all (natChars n) rest (natChars_all_digits n)
  unfold readNatTok
  rw [h1, h2, ht, hd, List.append_nil]
  rw [if_neg (natChars_ne_nil n), natOfDigitChars_natChars]

theorem readIntTok_intChars (n : Int) (rest : List Char)
    (h : termHeadB rest = true) :
    readIntTok (intChars n ++ rest) = some (n, rest) := by
  unfold intChars
  by_cases hneg : n < 0
  · rw [if_pos hneg]
    simp only [List.cons_append]
    rw [readIntTok, if_pos rfl, readNatTok_natChars _ _ h]
    simp only [Option.map_some']
    have : (-(n.natAbs : Int)) = n := by omega
    rw [this]
  · rw [if_neg hneg]
    cases hnc : natChars n.natAbs with
    | nil => exact absurd hnc (natChars_ne_nil _)
    | cons c cs =>
      have hcd : isDigitCh c = true :=
        natChars_all_digits _ c (by rw [hnc]; simp)
      have hcnd : c ≠ dashCh := by
        intro heq
        subst heq
        revert hcd
        decide
      have hr : readNatTok (c :: (cs ++ rest)) = some (n.natAbs, rest) := by
        have hx := readNatTok_natChars n.natAbs rest h
        rw [hnc] at hx
        simpa [List.cons_append] using hx
      simp only [List.cons_append]
      rw [readIntTok, if_neg hcnd]
      rw [hr]
      simp only [Option.map_some']
      have : ((n.natAbs : Int)) = n := by omega
      rw [this]

theorem parseNE_stringifyNE_none (v : Nat) (tL dL mL : List Char) :
    parseNE (stringifyNE ⟨v, ⟨tL⟩, ⟨dL⟩, ⟨mL⟩, none⟩) = some ⟨v, ⟨tL⟩, ⟨dL⟩, ⟨mL⟩, none⟩ := by
  unfold parseNE stringifyNE neChars
  simp only [data_mk, List.append_assoc, List.nil_append]
  rw [stripPre_append, opt_some_bind]
  rw [readNatTok_natChars _ _ (termHeadB_tick 't' _), opt_some_bind]
  dsimp only
  rw [stripPre_append, opt_some_bind]
  rw [decodeStrL_encode _ _ (termHeadB_tick 'd' _)]
  dsimp only
  rw [stripPre_append, opt_some_bind]
  rw [decodeStrL_encode _ _ (termHeadB_tick 'm' _)]
  dsimp only
  rw [stripPre_append, opt_some_bind]
  rw [decodeStrL_encode _ _ (termHeadB_close _)]
  dsimp only
  rw [if_pos rfl, if_pos rfl]

theorem parseNE_stringifyNE_raw (v : Nat) (tL dL mL fL : List Char) :
    parseNE (stringifyNE ⟨v, ⟨tL⟩, ⟨dL⟩, ⟨mL⟩, some (.raw ⟨fL⟩)⟩) =
      some ⟨v, ⟨tL⟩, ⟨dL⟩, ⟨mL⟩, some (.raw ⟨fL⟩)⟩ := by
  unfold parseNE stringifyNE neChars
  simp only [data_mk, detInnerChars, List.append_assoc, List.nil_append]
  rw [stripPre_append, opt_some_bind]
  rw [readNatTok_natChars _ _ (termHeadB_tick 't' _), opt_some_bind]
  dsimp only
  rw [stripPre_append, opt_some_bind]
  rw [decodeStrL_encode _ _ (termHeadB_tick 'd' _)]
  dsimp only
  rw [stripPre_append, opt_some_bind]
  rw [decodeStrL_encode _ _ (termHeadB_tick 'm' _)]
  dsimp only
  rw [stripPre_append, opt_some_bind]
  rw [decodeStrL_encode _ _ (by simp [termHeadB])]
  dsimp only
  simp only [List.cons_append]
  rw [if_neg (by decide)]
  simp only [stripPre, eq_self_iff_true, if_true, opt_some_bind]
  simp only [List.nil_append, if_true]
  simp only [stripPre, eq_self_iff_true, if_true, opt_some_bind]
  rw [decodeStrL_encode _ _ (termHeadB_close _)]
  dsimp only
  simp only [stripPre, eq_self_iff_true, if_true, opt_some_bind]

theorem parseNE_stringifyNE_script (v : Nat) (l c : Int)
    (tL dL mL fL wL : List Char) :
    parseNE (stringifyNE ⟨v, ⟨tL⟩, ⟨dL⟩, ⟨mL⟩, some (.script l c ⟨fL⟩ ⟨wL⟩)⟩) =
      some ⟨v, ⟨tL⟩, ⟨dL⟩, ⟨mL⟩, some (.script l c ⟨fL⟩ ⟨wL⟩)⟩ := by
  unfold parseNE stringifyNE neChars
  simp only [data_mk, detInnerChars, List.append_assoc, List.nil_append]
  rw [stripPre_append, opt_some_bind]
  rw [readNatTok_natChars _ _ (termHeadB_tick 't' _), opt_some_bind]
  dsimp only
  rw [stripPre_append, opt_some_bind]
  rw [decodeStrL_encode _ _ (termHeadB_tick 'd' _)]
  dsimp only
  rw [stripPre_append, opt_some_bind]
  rw [decodeStrL_encode _ _ (termHeadB_tick 'm' _)]
  dsimp only
  rw [stripPre_append, opt_some_bind]
  rw [decodeStrL_encode _ _ (by simp [termHeadB])]
  dsimp only
  simp only [List.cons_append]
  rw [if_neg (by decide)]
  simp only [stripPre, eq_self_iff_true, if_true, opt_some_bind]
  simp only [List.nil_append, if_true]
  simp only [stripPre, eq_self_iff_true, if_true, opt_some_bind]
  rw [readIntTok_intChars _ _ (termHeadB_tilde _), opt_some_bind]
  dsimp only
  simp only [stripPre, eq_self_iff_true, if_true, opt_some_bind]
  rw [readIntTok_intChars _ _ (termHeadB_tick 'f' _), opt_some_bind]
  dsimp only
  rw [stripPre_append, opt_some_bind]
  rw [decodeStrL_encode _ _ (termHeadB_tick 'w' _)]
  dsimp only
  rw [stripPre_append, opt_some_bind]
  rw [decodeStrL_encode _ _ (termHeadB_close _)]
  dsimp only
  simp only [stripPre, eq_self_iff_true, if_true, opt_some_bind]
  rw [if_neg (by decide)]

/-- C4: the wire format round-trips - decoding the encoder's output
yields the record back for every NormalizedError, with or without a
detail payload - and an undefined detail field is omitted from the
encoded string rather than encoded as null: the encoding of a
detail-less record contains neither an `~f` key nor a `null` token. -/
theorem wire_roundtrip_and_omission :
    (∀ r : NormalizedError, parseNE (stringifyNE r) = some r) ∧
    hasInfixL [tildeCh, 'f'] (neChars ⟨0, "T", "D", "M", none⟩) = false ∧
    hasInfixL ("null".data) (neChars ⟨0, "T", "D", "M", none⟩) = false := by
  refine ⟨?_, by decide, by decide⟩
  intro r
  obtain ⟨v, ⟨tL⟩, ⟨dL⟩, ⟨mL⟩, f⟩ := r
  cases f with
  | none => exact parseNE_stringifyNE_none v tL dL mL
  | some fd =>
    cases fd with
    | raw f =>
      obtain ⟨fL⟩ := f
      exact parseNE_stringifyNE_raw v tL dL mL fL
    | script l c f w =>
      obtain ⟨fL⟩ := f
      obtain ⟨wL⟩ := w
      exact parseNE_stringifyNE_script v l c tL dL mL fL wL

end ReportUri
